import Mathlib

/-
Verification of the Chronicle memory-persistence core: a shallow embedding
of the similarity kernel (src/utils/chatUtils.ts, src/utils/mcpTemplates.ts),
the salience-decay engine and scheduler (salienceDecayConfig.js /
salienceDecayService.js), and the Electron store handlers
(src/electron-main.js), together with theorems settling the frozen claims
C1..C10 about them.

Conventions of the embedding:
  * JavaScript numbers are embedded as real numbers (for the decay engine
    and cosine similarity, whose code uses Math.exp / Math.pow / Math.sqrt)
    or as rationals (for the store handlers, whose arithmetic is
    +0.05 / LEAST / literals only); timestamps are integers (milliseconds).
  * Fallible code is embedded with Except; a thrown Error is Except.error.
  * SQL row mutation is embedded as List.map over the table's rows, SQL
    insertion as appending; gen_random_uuid() is a fresh counter (the
    generated id is never the all-zero sentinel, modelled as 0).
  * Impure reads of the wall clock are turned into explicit parameters
    (now, the environmental context active during a cycle).
-/

namespace Chronicle

/-! ## Similarity kernel

`dotProduct` and `sumSquares` embed the single accumulation loop of both
cosineSimilarity implementations (`dotProduct += a[i]*b[i]`,
`magnitudeA += a[i]*a[i]`, `magnitudeB += b[i]*b[i]`). -/

def dotProduct : List ℝ → List ℝ → ℝ
  | a :: as, b :: bs => a * b + dotProduct as bs
  | _, _ => 0

def sumSquares : List ℝ → ℝ
  | [] => 0
  | x :: xs => x * x + sumSquares xs

open scoped Classical in
/-- Embedding of `cosineSimilarity` from src/utils/chatUtils.ts: throws
(`Except.error`) when the two vectors differ in length; after the loop it
takes square roots, returns 0 when either magnitude is zero, and otherwise
returns dot / (magA * magB). -/
noncomputable def cosineSimilarity (vecA vecB : List ℝ) : Except String ℝ :=
  if vecA.length ≠ vecB.length then
    Except.error "Vectors must have the same dimensionality"
  else
    let magnitudeA := Real.sqrt (sumSquares vecA)
    let magnitudeB := Real.sqrt (sumSquares vecB)
    if magnitudeA = 0 ∨ magnitudeB = 0 then Except.ok 0
    else Except.ok (dotProduct vecA vecB / (magnitudeA * magnitudeB))

/-- Embedding of `cosineSimilarity` from the MCP server template
(src/utils/mcpTemplates.ts): returns 0 when the vectors differ in length
(the null guard of the source is absorbed by totality of the model), else
dot / (sqrt magA * sqrt magB); division by zero is the embedding's 0. -/
noncomputable def cosineSimilarityMcp (vecA vecB : List ℝ) : ℝ :=
  if vecA.length ≠ vecB.length then 0
  else dotProduct vecA vecB / (Real.sqrt (sumSquares vecA) * Real.sqrt (sumSquares vecB))

theorem sumSquares_nonneg (v : List ℝ) : 0 ≤ sumSquares v := by
  induction v with
  | nil => simp [sumSquares]
  | cons x xs ih => simp only [sumSquares]; nlinarith [mul_self_nonneg x]

/-- Cauchy–Schwarz for the loop accumulators: the square of the dot product
is bounded by the product of the two sums of squares. -/
theorem dotProduct_sq_le (a b : List ℝ) :
    dotProduct a b ^ 2 ≤ sumSquares a * sumSquares b := by
  induction a generalizing b with
  | nil =>
    simp [dotProduct, sumSquares]
  | cons x as ih =>
    cases b with
    | nil =>
      simp only [dotProduct, sumSquares]
      nlinarith [sumSquares_nonneg (x :: as), mul_self_nonneg x, sumSquares_nonneg as]
    | cons y bs =>
      have hA := sumSquares_nonneg as
      have hB := sumSquares_nonneg bs
      have hd := ih bs
      simp only [dotProduct, sumSquares]
      rcases eq_or_lt_of_le hA with hA0 | hApos
      · have hd0 : dotProduct as bs = 0 := by nlinarith [sq_nonneg (dotProduct as bs)]
        rw [hd0, ← hA0]
        nlinarith [mul_self_nonneg x, mul_self_nonneg y, mul_nonneg (mul_self_nonneg x) hB]
      · nlinarith [sq_nonneg (sumSquares as * y - dotProduct as bs * x),
          mul_nonneg (mul_nonneg hA hB) (mul_self_nonneg x),
          mul_pos hApos hApos, mul_nonneg hA hB,
          mul_nonneg (mul_nonneg hA hA) (mul_self_nonneg y)]

theorem abs_dotProduct_le (a b : List ℝ) :
    |dotProduct a b| ≤ Real.sqrt (sumSquares a) * Real.sqrt (sumSquares b) := by
  have h := dotProduct_sq_le a b
  have hmul : Real.sqrt (sumSquares a) * Real.sqrt (sumSquares b)
      = Real.sqrt (sumSquares a * sumSquares b) :=
    (Real.sqrt_mul (sumSquares_nonneg a) _).symm
  rw [hmul, ← Real.sqrt_sq_eq_abs]
  exact Real.sqrt_le_sqrt h

theorem cosine_value_bounds (a b : List ℝ)
    (ha : Real.sqrt (sumSquares a) ≠ 0) (hb : Real.sqrt (sumSquares b) ≠ 0) :
    -1 ≤ dotProduct a b / (Real.sqrt (sumSquares a) * Real.sqrt (sumSquares b)) ∧
      dotProduct a b / (Real.sqrt (sumSquares a) * Real.sqrt (sumSquares b)) ≤ 1 := by
  have hapos : 0 < Real.sqrt (sumSquares a) :=
    lt_of_le_of_ne (Real.sqrt_nonneg _) (Ne.symm ha)
  have hbpos : 0 < Real.sqrt (sumSquares b) :=
    lt_of_le_of_ne (Real.sqrt_nonneg _) (Ne.symm hb)
  have hden : 0 < Real.sqrt (sumSquares a) * Real.sqrt (sumSquares b) := mul_pos hapos hbpos
  have habs : |dotProduct a b / (Real.sqrt (sumSquares a) * Real.sqrt (sumSquares b))| ≤ 1 := by
    rw [abs_div, abs_of_pos hden]
    exact (div_le_one hden).mpr (abs_dotProduct_le a b)
  exact ⟨(abs_le.mp habs).1, (abs_le.mp habs).2⟩

/-- C7 (amended). The chatUtils `cosineSimilarity` errors (throws) when the
two vectors have different dimensions, while the MCP-template variant
returns 0 in that case; with equal dimensions, chatUtils returns 0 when
either magnitude is zero and otherwise returns dot/(magA*magB), a value in
[-1, 1]. Determinism is immediate: both embeddings are functions of their
arguments. -/
theorem C7_cosine_spec (a b : List ℝ) :
    (a.length ≠ b.length →
      cosineSimilarity a b = Except.error "Vectors must have the same dimensionality" ∧
      cosineSimilarityMcp a b = 0) ∧
    (a.length = b.length →
      (Real.sqrt (sumSquares a) = 0 ∨ Real.sqrt (sumSquares b) = 0 →
        cosineSimilarity a b = Except.ok 0) ∧
      (Real.sqrt (sumSquares a) ≠ 0 → Real.sqrt (sumSquares b) ≠ 0 →
        cosineSimilarity a b
          = Except.ok (dotProduct a b / (Real.sqrt (sumSquares a) * Real.sqrt (sumSquares b))) ∧
        -1 ≤ dotProduct a b / (Real.sqrt (sumSquares a) * Real.sqrt (sumSquares b)) ∧
        dotProduct a b / (Real.sqrt (sumSquares a) * Real.sqrt (sumSquares b)) ≤ 1)) := by
  constructor
  · intro hne
    constructor
    · simp [cosineSimilarity, hne]
    · simp [cosineSimilarityMcp, hne]
  · intro heq
    constructor
    · intro hzero
      simp only [cosineSimilarity, heq]
      simp [hzero]
    · intro ha hb
      refine ⟨?_, cosine_value_bounds a b ha hb⟩
      have hnotor : ¬(Real.sqrt (sumSquares a) = 0 ∨ Real.sqrt (sumSquares b) = 0) := by
        rintro (h | h)
        · exact ha h
        · exact hb h
      simp only [cosineSimilarity, heq]
      simp [hnotor, ha, hb]

/-- C7 counterexample. The claim says cosine returns 0 when the two vectors
have different dimensions; the chatUtils implementation instead throws
("Vectors must have the same dimensionality") on the concrete input
a = [1], b = [1, 2], so it does not return 0 there. -/
theorem C7_cosine_cex :
    cosineSimilarity [(1 : ℝ)] [1, 2] ≠ Except.ok 0 ∧
    cosineSimilarity [(1 : ℝ)] [1, 2]
      = Except.error "Vectors must have the same dimensionality" := by
  have h : cosineSimilarity [(1 : ℝ)] [1, 2]
      = Except.error "Vectors must have the same dimensionality" := by
    simp [cosineSimilarity]
  exact ⟨by rw [h]; simp, h⟩

/-! ## MCP server, semantic_search (JSON variant of src/utils/mcpTemplates.ts)

The in-memory variant of the MCP server holds a list of chats and serves
`call_tool('semantic_search', ...)` purely; its pg variant implements the
same contract with `<=>` (cosine distance) in SQL, so `score` is stated
both as cosine similarity and as `1 - cosineDistance`. -/

structure McpChat where
  id : String
  title : String
  summary : String
  createdAt : ℤ
  tags : List String
  embedding : Option (List ℝ)

structure ScoredResult where
  id : String
  title : String
  summary : String
  score : ℝ

/-- The MCP tool response: either the `isError: true` payload with its text,
or the JSON array of scored results. -/
inductive ToolResponse where
  | err (text : String)
  | ok (results : List ScoredResult)

/-- Cosine distance as pgvector's `<=>` computes it over unit-normalised
similarity: distance = 1 - similarity, so `1 - distance` is the similarity
score the pg variant returns. -/
noncomputable def cosineDistance (a b : List ℝ) : ℝ := 1 - cosineSimilarityMcp a b

/-- Descending order on scores, the comparator `(a, b) => b.score - a.score`
of the source's sort. -/
def scoreDesc (x y : ScoredResult) : Prop := y.score ≤ x.score

noncomputable instance : DecidableRel scoreDesc := fun x y => Real.decidableLE y.score x.score

instance : IsTotal ScoredResult scoreDesc := ⟨fun a b => (le_total b.score a.score)⟩

instance : IsTrans ScoredResult scoreDesc :=
  ⟨fun _ _ _ h1 h2 => le_trans h2 h1⟩

/-- Embedding of the `semantic_search` handler of the JSON MCP server
template: find the target by id; error payload when it is absent or has no
embedding; otherwise score every other chat that has an embedding with
cosine similarity against the target, sort descending and take
`args.limit || 5` results. -/
noncomputable def semanticSearch (chats : List McpChat) (targetId : String)
    (limit : Option ℕ) : ToolResponse :=
  match chats.find? (fun c => c.id == targetId) with
  | none => ToolResponse.err "Target chat not found or has no vector data."
  | some target =>
    match target.embedding with
    | none => ToolResponse.err "Target chat not found or has no vector data."
    | some temb =>
      let cands := chats.filter (fun c => !(c.id == target.id) && c.embedding.isSome)
      let scored := cands.map (fun c =>
        { id := c.id, title := c.title, summary := c.summary,
          score := cosineSimilarityMcp temb (c.embedding.getD []) : ScoredResult })
      let lim := match limit with | none => 5 | some n => if n = 0 then 5 else n
      ToolResponse.ok ((scored.insertionSort scoreDesc).take lim)

/-- C8. `semantic_search` answers with the error payload "Target chat not
found or has no vector data." exactly when no chat with the target id is
found or the found chat has no embedding; otherwise it returns a list that
is sorted by descending score, excludes the target id, and scores each
candidate chat (one of the stored chats holding an embedding) with
`1 - cosineDistance`, the cosine similarity against the target's
embedding. -/
theorem C8_semantic_search (chats : List McpChat) (targetId : String) (limit : Option ℕ) :
    (semanticSearch chats targetId limit
        = ToolResponse.err "Target chat not found or has no vector data." ↔
      (chats.find? (fun c => c.id == targetId) = none ∨
        ∃ t, chats.find? (fun c => c.id == targetId) = some t ∧ t.embedding = none)) ∧
    (∀ t temb, chats.find? (fun c => c.id == targetId) = some t → t.embedding = some temb →
      ∃ l, semanticSearch chats targetId limit = ToolResponse.ok l ∧
        l.Sorted scoreDesc ∧
        (∀ s ∈ l, s.id ≠ targetId) ∧
        (∀ s ∈ l, ∃ c ∈ chats, c.id = s.id ∧ ∃ e, c.embedding = some e ∧
          s.score = 1 - cosineDistance temb e)) := by
  constructor
  · constructor
    · intro h
      match hf : chats.find? (fun c => c.id == targetId) with
      | none => exact Or.inl hf
      | some t =>
        match he : t.embedding with
        | none => exact Or.inr ⟨t, hf, he⟩
        | some temb =>
          exfalso
          simp only [semanticSearch, hf, he] at h
          exact ToolResponse.noConfusion h
    · rintro (hf | ⟨t, hf, he⟩)
      · simp only [semanticSearch, hf]
      · simp only [semanticSearch, hf, he]
  · intro t temb hf he
    have htid : t.id = targetId := by
      have := List.find?_some hf
      simpa using this
    have hrun : semanticSearch chats targetId limit = ToolResponse.ok
        ((List.insertionSort scoreDesc
          ((chats.filter fun c => !(c.id == t.id) && c.embedding.isSome).map fun c =>
            { id := c.id, title := c.title, summary := c.summary,
              score := cosineSimilarityMcp temb (c.embedding.getD []) })).take
          (match limit with | none => 5 | some n => if n = 0 then 5 else n)) := by
      simp only [semanticSearch, hf, he]
    refine ⟨_, hrun, ?_, ?_, ?_⟩
    · exact ((List.sorted_insertionSort scoreDesc _).sublist (List.take_sublist _ _))
    · intro s hs
      have hs2 := (List.perm_insertionSort scoreDesc _).mem_iff.mp (List.mem_of_mem_take hs)
      obtain ⟨c, hc, rfl⟩ := List.mem_map.mp hs2
      have hcf := (List.mem_filter.mp hc).2
      have hcne : c.id ≠ t.id := by
        have := (Bool.and_eq_true _ _).mp hcf |>.1
        simpa using this
      simpa [htid] using hcne
    · intro s hs
      have hs2 := (List.perm_insertionSort scoreDesc _).mem_iff.mp (List.mem_of_mem_take hs)
      obtain ⟨c, hc, rfl⟩ := List.mem_map.mp hs2
      have hcmem := (List.mem_filter.mp hc).1
      have hcf := (List.mem_filter.mp hc).2
      have hsome : c.embedding.isSome = true := ((Bool.and_eq_true _ _).mp hcf).2
      obtain ⟨e, hce⟩ := Option.isSome_iff_exists.mp hsome
      refine ⟨c, hcmem, rfl, e, hce, ?_⟩
      simp [cosineDistance, hce]

/-! ## Store (the chats/facts tables and the electron-main.js IPC handlers)

Rows mirror the PostgreSQL columns created in initDatabase; salience and
confidence are rationals (the handlers only add and clamp decimal
literals), timestamps are integer milliseconds. Fact ids (UUIDs generated
by gen_random_uuid) are modelled as a fresh counter starting at 1; the
zero UUID sentinel '00000000-0000-0000-0000-000000000000' is modelled as
0, which no generated id ever equals. -/

structure ChatRow where
  id : String
  typ : String
  title : String
  content : String
  summary : String
  tags : List String
  source : String
  createdAt : ℤ
  updatedAt : ℤ
  fileName : Option String
  embedding : Option (List ℚ)
  assets : List String
  memoryType : Option String
  salience : Option ℚ
  recallCount : ℤ
  lastAccessedAt : Option ℤ
  decayMetadata : String
deriving DecidableEq

structure FactRow where
  id : ℕ
  chatId : String
  subject : String
  predicate : String
  object : String
  confidence : ℚ
  salience : ℚ
  validFrom : ℤ
  validTo : Option ℤ
  createdAt : ℤ
  lastAccessedAt : Option ℤ
  recallCount : ℤ
deriving DecidableEq

structure Store where
  chats : List ChatRow
  facts : List FactRow
  nextFactId : ℕ
deriving DecidableEq

/-- Embedding of the 'boost-salience' IPC handler of src/electron-main.js:
UPDATE chats SET salience = LEAST(salience + 0.05, 1.0), recall_count =
COALESCE(recall_count, 0) + 1, last_accessed_at = now WHERE id = chatId;
then UPDATE facts SET salience = LEAST(salience + 0.03, 1.0),
last_accessed_at = now WHERE chat_id = chatId; and, when the decay service
is initialised (serviceRunning), onMemoryAccess additionally sets
last_accessed_at = now and increments recall_count on the chats row once
more. A NULL chats.salience follows PostgreSQL: NULL + 0.05 is NULL and
LEAST ignores NULL operands, so the column becomes 1.0. -/
def boostSalience (db : Store) (chatId : String) (now : ℤ) (serviceRunning : Bool) : Store :=
  let chats1 := db.chats.map fun c =>
    if c.id = chatId then
      { c with salience := some (match c.salience with | some v => min (v + 0.05) 1 | none => 1),
               recallCount := c.recallCount + 1,
               lastAccessedAt := some now }
    else c
  let facts1 := db.facts.map fun f =>
    if f.chatId = chatId then
      { f with salience := min (f.salience + 0.03) 1, lastAccessedAt := some now }
    else f
  let chats2 :=
    if serviceRunning then
      chats1.map fun c =>
        if c.id = chatId then
          { c with lastAccessedAt := some now, recallCount := c.recallCount + 1 }
        else c
    else chats1
  { db with chats := chats2, facts := facts1 }

/-- An extracted fact as the 'save-facts' handler receives it. The typed
renderer interface (ExtractedFact in src/types.ts) carries no id, but the
handler reads `fact.id || zero-uuid`, so the model keeps the field as an
Option, `none` standing for the absent id that falls back to the zero-UUID
sentinel (0). -/
structure IncomingFact where
  id : Option ℕ
  subject : String
  predicate : String
  object : String
  confidence : Option ℚ

/-- The UPDATE of the 'save-facts' handler: close (valid_to := now) every
fact matching the incoming subject and predicate that is live and whose id
differs from `fact.id || zero-uuid`. -/
def closeFacts (facts : List FactRow) (f : IncomingFact) (now : ℤ) : List FactRow :=
  facts.map fun r =>
    if r.subject = f.subject ∧ r.predicate = f.predicate ∧ r.validTo = none ∧ r.id ≠ f.id.getD 0
    then { r with validTo := some now } else r

/-- The INSERT of the 'save-facts' handler: a fresh row (generated id, the
counter) with salience 0.5 and valid_to NULL; ON CONFLICT DO NOTHING never
fires because the generated id is fresh. -/
def insertFact (db : Store) (chatId : String) (f : IncomingFact) (now : ℤ) : Store :=
  { db with
    facts := db.facts ++
      [({ id := db.nextFactId, chatId := chatId, subject := f.subject,
          predicate := f.predicate, object := f.object, confidence := f.confidence.getD 1,
          salience := 0.5, validFrom := now, validTo := none, createdAt := now,
          lastAccessedAt := none, recallCount := 0 } : FactRow)],
    nextFactId := db.nextFactId + 1 }

def saveFactsOne (db : Store) (chatId : String) (f : IncomingFact) (now : ℤ) : Store :=
  insertFact { db with facts := closeFacts db.facts f now } chatId f now

/-- Embedding of the 'save-facts' IPC handler: per incoming fact, the
close-then-insert pair, over the whole list in one transaction. -/
def saveFacts (db : Store) (chatId : String) (facts : List IncomingFact) (now : ℤ) : Store :=
  facts.foldl (fun d f => saveFactsOne d chatId f now) db

/-- How many facts with this subject and predicate are live
(valid_to IS NULL). -/
def liveCount : List FactRow → String → String → ℕ
  | [], _, _ => 0
  | r :: rs, sub, pred =>
    (if r.subject = sub ∧ r.predicate = pred ∧ r.validTo = none then 1 else 0)
      + liveCount rs sub pred

/-- Well-formedness of the facts table as the handlers create it: every id
is a generated one (at least 1 and below the counter), and each
(subject, predicate) pair has at most one live fact. -/
def FactsWF (db : Store) : Prop :=
  (∀ r ∈ db.facts, 1 ≤ r.id ∧ r.id < db.nextFactId) ∧
  1 ≤ db.nextFactId ∧
  (∀ sub pred, liveCount db.facts sub pred ≤ 1)

/-- An item as the 'save-database' handler receives it (the renderer's
ChatEntry): `type`, `updatedAt` and `assets` may be absent and fall back to
'chat', createdAt and [] respectively; absent salience is stored as NULL. -/
structure IncomingItem where
  id : String
  typ : Option String
  title : String
  content : String
  summary : String
  tags : List String
  source : String
  createdAt : ℤ
  updatedAt : Option ℤ
  fileName : Option String
  embedding : Option (List ℚ)
  assets : Option (List String)
  memoryType : Option String
  salience : Option ℚ

/-- One INSERT ... ON CONFLICT (id) DO UPDATE of the 'save-database'
handler: when a row with the id exists, exactly the columns of the SET list
(type, title, content, summary, tags, source, updatedAt, embedding, assets,
memory_type, salience) are overwritten from the excluded row; otherwise a
new row is inserted, recall_count, last_accessed_at and decay_metadata
taking their column defaults. -/
def upsertChat (rows : List ChatRow) (item : IncomingItem) : List ChatRow :=
  if rows.any fun r => r.id = item.id then
    rows.map fun r =>
      if r.id = item.id then
        { r with
            typ := item.typ.getD "chat", title := item.title, content := item.content,
            summary := item.summary, tags := item.tags, source := item.source,
            updatedAt := item.updatedAt.getD item.createdAt, embedding := item.embedding,
            assets := item.assets.getD [], memoryType := item.memoryType,
            salience := item.salience }
      else r
  else
    rows ++
      [({ id := item.id, typ := item.typ.getD "chat", title := item.title,
          content := item.content, summary := item.summary, tags := item.tags,
          source := item.source, createdAt := item.createdAt,
          updatedAt := item.updatedAt.getD item.createdAt, fileName := item.fileName,
          embedding := item.embedding, assets := item.assets.getD [],
          memoryType := item.memoryType, salience := item.salience,
          recallCount := 0, lastAccessedAt := none, decayMetadata := "\x7b\x7d" } : ChatRow)]

/-- Embedding of the 'save-database' IPC handler: the upsert above for each
item of the batch, in order, in one transaction. -/
def saveDatabase (rows : List ChatRow) (items : List IncomingItem) : List ChatRow :=
  items.foldl upsertChat rows

/-! ### Claims C3, C4, C9 -/

/-- C3 (amended). A single boost_salience(id) call sets the chat row's
salience to min(salience + 0.05, 1.0) and its last_accessed_at to now, and
for every fact of the chat sets salience to min(salience + 0.03, 1.0) and
last_accessed_at to now; but recall_count grows by 2 when the decay service
is initialised (the handler's own increment plus onMemoryAccess's), and by
exactly 1 only when it is not. The updates are separate UPDATE statements,
not one transaction; the model composes them sequentially. -/
theorem C3_boost_salience (db : Store) (chatId : String) (now : ℤ) (svc : Bool)
    (c : ChatRow) (v : ℚ) (hc : c ∈ db.chats) (hid : c.id = chatId) (hv : c.salience = some v) :
    ({ c with
        salience := some (min (v + 0.05) 1),
        recallCount := c.recallCount + (if svc then 2 else 1),
        lastAccessedAt := some now } : ChatRow) ∈ (boostSalience db chatId now svc).chats ∧
    ∀ f ∈ db.facts, f.chatId = chatId →
      ({ f with salience := min (f.salience + 0.03) 1, lastAccessedAt := some now } : FactRow)
        ∈ (boostSalience db chatId now svc).facts := by
  subst hid
  constructor
  · cases svc with
    | false =>
      simp only [boostSalience, Bool.false_eq_true, if_false]
      refine List.mem_map.mpr ⟨c, hc, ?_⟩
      simp [hv]
    | true =>
      simp only [boostSalience, if_true]
      refine List.mem_map.mpr ⟨_, List.mem_map.mpr ⟨c, hc, rfl⟩, ?_⟩
      simp only [if_pos rfl]
      simp [hv]
      ring
  · intro f hf hfc
    cases svc <;>
      exact List.mem_map.mpr ⟨f, hf, by simp [hfc]⟩

/-- C3 witness: the amended statement instantiated on a one-chat, one-fact
store with the decay service running. -/
theorem C3_boost_salience_witness :
    ({ id := "a", typ := "chat", title := "t", content := "", summary := "", tags := [],
       source := "Manual", createdAt := 0, updatedAt := 0, fileName := none,
       embedding := none, assets := [], memoryType := none,
       salience := some (min ((2 : ℚ)/5 + 0.05) 1), recallCount := 0 + (if true then 2 else 1),
       lastAccessedAt := some 7, decayMetadata := "" } : ChatRow)
      ∈ (boostSalience
          (⟨[⟨"a", "chat", "t", "", "", [], "Manual", 0, 0, none, none, [], none,
              some ((2 : ℚ)/5), 0, none, ""⟩],
            [⟨1, "a", "s", "p", "o", 1, 0.5, 0, none, 0, none, 0⟩], 2⟩ : Store)
          "a" 7 true).chats ∧
    ∀ f ∈ (⟨[⟨"a", "chat", "t", "", "", [], "Manual", 0, 0, none, none, [], none,
              some ((2 : ℚ)/5), 0, none, ""⟩],
            [⟨1, "a", "s", "p", "o", 1, 0.5, 0, none, 0, none, 0⟩], 2⟩ : Store).facts,
      f.chatId = "a" →
      ({ f with salience := min (f.salience + 0.03) 1, lastAccessedAt := some 7 } : FactRow)
        ∈ (boostSalience
            (⟨[⟨"a", "chat", "t", "", "", [], "Manual", 0, 0, none, none, [], none,
                some ((2 : ℚ)/5), 0, none, ""⟩],
              [⟨1, "a", "s", "p", "o", 1, 0.5, 0, none, 0, none, 0⟩], 2⟩ : Store)
            "a" 7 true).facts :=
  C3_boost_salience _ "a" 7 true
    ⟨"a", "chat", "t", "", "", [], "Manual", 0, 0, none, none, [], none,
      some ((2 : ℚ)/5), 0, none, ""⟩
    ((2 : ℚ)/5) (List.mem_singleton_self _) rfl rfl

/-- C3 counterexample. With the decay service initialised (as it is after a
successful startup of electron-main.js), one boost_salience call takes the
chat's recall_count from 0 to 2, not to 1: the handler increments once and
then onMemoryAccess increments again. -/
theorem C3_boost_cex :
    (boostSalience
        (⟨[⟨"a", "chat", "t", "", "", [], "Manual", 0, 0, none, none, [], none,
            some ((2 : ℚ)/5), 0, none, ""⟩], [], 1⟩ : Store)
        "a" 7 true).chats.map (fun r => r.recallCount) = [2] ∧ (2 : ℤ) ≠ 0 + 1 := by
  constructor
  · rfl
  · decide

/-! Supporting lemmas for C4: how closeFacts and insertFact move the live
count of each (subject, predicate) pair. -/

theorem liveCount_closeFacts_le (facts : List FactRow) (f : IncomingFact) (now : ℤ)
    (sub pred : String) :
    liveCount (closeFacts facts f now) sub pred ≤ liveCount facts sub pred := by
  induction facts with
  | nil => simp [closeFacts, liveCount]
  | cons r rs ih =>
    simp only [closeFacts, List.map_cons] at ih ⊢
    by_cases hcond :
        r.subject = f.subject ∧ r.predicate = f.predicate ∧ r.validTo = none ∧ r.id ≠ f.id.getD 0
    · rw [if_pos hcond]
      simp only [liveCount]
      have hcl : ¬(({ r with validTo := some now } : FactRow).subject = sub ∧
          ({ r with validTo := some now } : FactRow).predicate = pred ∧
          ({ r with validTo := some now } : FactRow).validTo = none) := by
        rintro ⟨-, -, h3⟩
        exact Option.noConfusion h3
      rw [if_neg hcl]
      calc 0 + liveCount (closeFacts rs f now) sub pred
          = liveCount (closeFacts rs f now) sub pred := by rw [Nat.zero_add]
        _ ≤ liveCount rs sub pred := ih
        _ ≤ _ := Nat.le_add_left _ _
    · rw [if_neg hcond]
      simp only [liveCount]
      exact Nat.add_le_add_left ih _

theorem liveCount_closeFacts_self (facts : List FactRow) (f : IncomingFact) (now : ℤ)
    (hid : ∀ r ∈ facts, r.id ≠ f.id.getD 0) :
    liveCount (closeFacts facts f now) f.subject f.predicate = 0 := by
  induction facts with
  | nil => simp [closeFacts, liveCount]
  | cons r rs ih =>
    have hrid : r.id ≠ f.id.getD 0 := hid r (List.mem_cons_self r rs)
    have ih2 := ih (fun x hx => hid x (List.mem_cons_of_mem r hx))
    simp only [closeFacts, List.map_cons] at ih2 ⊢
    by_cases hcond :
        r.subject = f.subject ∧ r.predicate = f.predicate ∧ r.validTo = none ∧ r.id ≠ f.id.getD 0
    · rw [if_pos hcond]
      simp only [liveCount]
      have hcl : ¬(({ r with validTo := some now } : FactRow).subject = f.subject ∧
          ({ r with validTo := some now } : FactRow).predicate = f.predicate ∧
          ({ r with validTo := some now } : FactRow).validTo = none) := by
        rintro ⟨-, -, h3⟩
        exact Option.noConfusion h3
      rw [if_neg hcl, Nat.zero_add]
      exact ih2
    · have hnot : ¬(r.subject = f.subject ∧ r.predicate = f.predicate ∧ r.validTo = none) := by
        rintro ⟨h1, h2, h3⟩
        exact hcond ⟨h1, h2, h3, hrid⟩
      rw [if_neg hcond]
      simp only [liveCount]
      rw [if_neg hnot, Nat.zero_add]
      exact ih2

theorem liveCount_append_single (facts : List FactRow) (nr : FactRow) (sub pred : String) :
    liveCount (facts ++ [nr]) sub pred = liveCount facts sub pred
      + (if nr.subject = sub ∧ nr.predicate = pred ∧ nr.validTo = none then 1 else 0) := by
  induction facts with
  | nil => simp [liveCount]
  | cons r rs ih =>
    simp only [List.cons_append, liveCount, List.append_eq]
    rw [ih]
    omega

theorem closeFacts_id_mem (facts : List FactRow) (f : IncomingFact) (now : ℤ)
    (r : FactRow) (hr : r ∈ closeFacts facts f now) : ∃ r0 ∈ facts, r.id = r0.id := by
  obtain ⟨r0, hr0, hmap⟩ := List.mem_map.mp hr
  refine ⟨r0, hr0, ?_⟩
  by_cases hcond :
      r0.subject = f.subject ∧ r0.predicate = f.predicate ∧ r0.validTo = none ∧
        r0.id ≠ f.id.getD 0
  · rw [if_pos hcond] at hmap; rw [← hmap]
  · rw [if_neg hcond] at hmap; rw [← hmap]

theorem saveFactsOne_WF (db : Store) (chatId : String) (f : IncomingFact) (now : ℤ)
    (hdb : FactsWF db) (hf : f.id = none) : FactsWF (saveFactsOne db chatId f now) := by
  obtain ⟨hids, hnext, hlive⟩ := hdb
  have hsent : f.id.getD 0 = 0 := by rw [hf]; rfl
  have hids0 : ∀ r ∈ db.facts, r.id ≠ f.id.getD 0 := by
    intro r hr
    rw [hsent]
    have := (hids r hr).1
    omega
  refine ⟨?_, by simp only [saveFactsOne, insertFact]; omega, ?_⟩
  · intro r hr
    simp only [saveFactsOne, insertFact, List.mem_append, List.mem_singleton] at hr
    rcases hr with hr | hr
    · obtain ⟨r0, hr0, hideq⟩ := closeFacts_id_mem db.facts f now r hr
      have := hids r0 hr0
      simp only [saveFactsOne, insertFact]
      omega
    · subst hr
      simp only [saveFactsOne, insertFact]
      omega
  · intro sub pred
    simp only [saveFactsOne, insertFact]
    rw [liveCount_append_single]
    by_cases hsp : f.subject = sub ∧ f.predicate = pred
    · obtain ⟨hs, hp⟩ := hsp
      subst hs; subst hp
      rw [liveCount_closeFacts_self db.facts f now hids0]
      split_ifs <;> omega
    · split_ifs with h
      · exact absurd ⟨h.1, h.2.1⟩ hsp
      · rw [Nat.add_zero]
        exact le_trans (liveCount_closeFacts_le db.facts f now sub pred) (hlive sub pred)

theorem saveFacts_WF (db : Store) (chatId : String) (fs : List IncomingFact) (now : ℤ)
    (hdb : FactsWF db) (hfs : ∀ f ∈ fs, f.id = none) :
    FactsWF (saveFacts db chatId fs now) := by
  induction fs generalizing db with
  | nil => exact hdb
  | cons f fs ih =>
    simp only [saveFacts, List.foldl_cons] at *
    exact ih _ (saveFactsOne_WF db chatId f now hdb (hfs f (List.mem_cons_self f fs)))
      (fun g hg => hfs g (List.mem_cons_of_mem f hg))

/-- C4 (amended). Provided every saved fact carries no id (as extractor
output, the typed ExtractedFact, always does — an id equal to the live
row's id would be excluded from the close and break the invariant), any
sequence of save_facts calls keeps at most one live fact per
(subject, predicate); a single save closes every prior live fact with the
same pair (their ids differ from the zero-UUID sentinel) by setting
valid_to to now, and inserts the new fact as live with salience 0.5. -/
theorem C4_fact_supersession (db : Store) (chatId : String) (fs : List IncomingFact) (now : ℤ)
    (hdb : FactsWF db) (hfs : ∀ f ∈ fs, f.id = none) :
    FactsWF (saveFacts db chatId fs now) ∧
    (∀ f : IncomingFact, f.id = none →
      ∀ r ∈ db.facts, r.subject = f.subject → r.predicate = f.predicate → r.validTo = none →
        ({ r with validTo := some now } : FactRow) ∈ (saveFactsOne db chatId f now).facts) ∧
    (∀ f : IncomingFact, ∃ nr ∈ (saveFactsOne db chatId f now).facts,
      nr.chatId = chatId ∧ nr.subject = f.subject ∧ nr.predicate = f.predicate ∧
      nr.object = f.object ∧ nr.salience = 0.5 ∧ nr.validTo = none) := by
  refine ⟨saveFacts_WF db chatId fs now hdb hfs, ?_, ?_⟩
  · intro f hfid r hr hs hp hlive
    have hrid : r.id ≠ f.id.getD 0 := by
      have h1 := (hdb.1 r hr).1
      rw [hfid]
      intro h0
      simp at h0
      omega
    simp only [saveFactsOne, insertFact, List.mem_append]
    left
    exact List.mem_map.mpr ⟨r, hr, by rw [if_pos ⟨hs, hp, hlive, hrid⟩]⟩
  · intro f
    have hmem : (⟨db.nextFactId, chatId, f.subject, f.predicate, f.object,
        f.confidence.getD 1, 0.5, now, none, now, none, 0⟩ : FactRow)
        ∈ (saveFactsOne db chatId f now).facts := by
      simp only [saveFactsOne, insertFact]
      exact List.mem_append_right _ (List.mem_singleton_self _)
    exact ⟨_, hmem, rfl, rfl, rfl, rfl, rfl, rfl⟩

/-- C4 witness: the amended statement instantiated on the empty store and a
single id-less extracted fact. -/
theorem C4_fact_supersession_witness :
    FactsWF (saveFacts (⟨[], [], 1⟩ : Store) "c"
      [⟨none, "Alice", "lives_in", "Paris", some 0.9⟩] 100) ∧
    (∀ f : IncomingFact, f.id = none →
      ∀ r ∈ (⟨[], [], 1⟩ : Store).facts,
        r.subject = f.subject → r.predicate = f.predicate → r.validTo = none →
        ({ r with validTo := some 100 } : FactRow)
          ∈ (saveFactsOne (⟨[], [], 1⟩ : Store) "c" f 100).facts) ∧
    (∀ f : IncomingFact, ∃ nr ∈ (saveFactsOne (⟨[], [], 1⟩ : Store) "c" f 100).facts,
      nr.chatId = "c" ∧ nr.subject = f.subject ∧ nr.predicate = f.predicate ∧
      nr.object = f.object ∧ nr.salience = 0.5 ∧ nr.validTo = none) :=
  C4_fact_supersession (⟨[], [], 1⟩ : Store) "c"
    [⟨none, "Alice", "lives_in", "Paris", some 0.9⟩] 100
    ⟨by simp, by norm_num, fun sub pred => by simp [liveCount]⟩
    (by intro f hf; simp at hf; rw [hf])

/-- C4 counterexample. The invariant fails for an adversarial save: after
saving (Alice, lives_in, Paris) from the empty store (the row gets
generated id 1), a second save_facts call whose incoming fact carries
id 1 skips the close (the UPDATE excludes `id <> fact.id`) yet still
inserts a fresh live row, leaving two live facts for (Alice, lives_in). -/
theorem C4_fact_cex :
    liveCount (saveFacts (saveFacts (⟨[], [], 1⟩ : Store) "c"
        [⟨none, "Alice", "lives_in", "Paris", some 0.9⟩] 100) "c"
        [⟨some 1, "Alice", "lives_in", "Berlin", some 0.95⟩] 200).facts
      "Alice" "lives_in" = 2 := by
  rfl

/-- One upsert step's effect on a pre-existing row: the columns absent
from the SET list (created_at, recall_count, last_accessed_at,
decay_metadata, file_name) are untouched whether or not the item matches,
and updated_at becomes the item's updatedAt (falling back to its
createdAt) exactly when the ids match. -/
theorem upsertChat_frame (rows : List ChatRow) (it : IncomingItem) (r : ChatRow)
    (hr : r ∈ rows) :
    ∃ r2 ∈ upsertChat rows it,
      r2.id = r.id ∧ r2.createdAt = r.createdAt ∧ r2.recallCount = r.recallCount ∧
      r2.lastAccessedAt = r.lastAccessedAt ∧ r2.decayMetadata = r.decayMetadata ∧
      r2.fileName = r.fileName ∧
      r2.updatedAt
        = (if r.id = it.id then it.updatedAt.getD it.createdAt else r.updatedAt) := by
  unfold upsertChat
  by_cases hany : (rows.any fun x => x.id = it.id) = true
  · rw [if_pos hany]
    by_cases hid : r.id = it.id
    · refine ⟨{ r with
          typ := it.typ.getD "chat", title := it.title, content := it.content,
          summary := it.summary, tags := it.tags, source := it.source,
          updatedAt := it.updatedAt.getD it.createdAt, embedding := it.embedding,
          assets := it.assets.getD [], memoryType := it.memoryType,
          salience := it.salience },
        List.mem_map.mpr ⟨r, hr, by simp only [if_pos hid]⟩,
        rfl, rfl, rfl, rfl, rfl, rfl, ?_⟩
      rw [if_pos hid]
    · refine ⟨r, List.mem_map.mpr ⟨r, hr, by simp only [if_neg hid]⟩,
        rfl, rfl, rfl, rfl, rfl, rfl, ?_⟩
      rw [if_neg hid]
  · rw [if_neg hany]
    have hnid : ¬ r.id = it.id := fun h =>
      hany (List.any_eq_true.mpr ⟨r, hr, by simp [h]⟩)
    refine ⟨r, List.mem_append_left _ hr, rfl, rfl, rfl, rfl, rfl, rfl, ?_⟩
    rw [if_neg hnid]

/-- The frame property threaded through a whole batch: after upserting any
item list, some row keeps the original row's id, created_at, recall_count,
last_accessed_at, decay_metadata and file_name, and its updated_at is the
fold of the incoming updatedAt values of the items whose id matches —
never a wall-clock time. -/
theorem saveDatabase_frame :
    ∀ (items : List IncomingItem) (rows : List ChatRow) (r : ChatRow), r ∈ rows →
      ∃ r2 ∈ saveDatabase rows items,
        r2.id = r.id ∧ r2.createdAt = r.createdAt ∧ r2.recallCount = r.recallCount ∧
        r2.lastAccessedAt = r.lastAccessedAt ∧ r2.decayMetadata = r.decayMetadata ∧
        r2.fileName = r.fileName ∧
        r2.updatedAt = items.foldl
          (fun u x => if r.id = x.id then x.updatedAt.getD x.createdAt else u)
          r.updatedAt := by
  intro items
  induction items with
  | nil =>
    intro rows r hr
    exact ⟨r, hr, rfl, rfl, rfl, rfl, rfl, rfl, rfl⟩
  | cons it rest ih =>
    intro rows r hr
    obtain ⟨r2, hr2, hid, hca, hrc, hla, hdm, hfn, hup⟩ := upsertChat_frame rows it r hr
    obtain ⟨r3, hr3, hid3, hca3, hrc3, hla3, hdm3, hfn3, hup3⟩ :=
      ih (upsertChat rows it) r2 hr2
    refine ⟨r3, ?_, ?_, ?_, ?_, ?_, ?_, ?_, ?_⟩
    · simpa only [saveDatabase, List.foldl_cons] using hr3
    · rw [hid3, hid]
    · rw [hca3, hca]
    · rw [hrc3, hrc]
    · rw [hla3, hla]
    · rw [hdm3, hdm]
    · rw [hfn3, hfn]
    · rw [hup3, hup, List.foldl_cons]
      simp only [hid]

/-- C9 (amended). For every bulk upsert (save_database) and every row
already in the store, the batch leaves the row's created_at, recall_count,
last_accessed_at, decay_metadata (and file_name) unchanged, and its
updated_at ends as the fold of the matching incoming items' updatedAt
values (each falling back to that item's createdAt) — in particular, for a
batch containing one item with the row's id, updated_at becomes that
item's updatedAt, not the wall-clock time of the call. -/
theorem C9_upsert_frame (rows : List ChatRow) (items : List IncomingItem) (r : ChatRow)
    (hr : r ∈ rows) :
    ∃ r2 ∈ saveDatabase rows items,
      r2.id = r.id ∧ r2.createdAt = r.createdAt ∧ r2.recallCount = r.recallCount ∧
      r2.lastAccessedAt = r.lastAccessedAt ∧ r2.decayMetadata = r.decayMetadata ∧
      r2.fileName = r.fileName ∧
      r2.updatedAt = items.foldl
        (fun u x => if r.id = x.id then x.updatedAt.getD x.createdAt else u)
        r.updatedAt :=
  saveDatabase_frame items rows r hr

/-- C9 witness: a two-item batch (one item updating the stored row "x",
one inserting a new row "y") preserves the four frame columns of "x" and
sets its updated_at to the matching item's updatedAt 123. -/
theorem C9_upsert_frame_witness :
    ∃ r2 ∈ saveDatabase
        [⟨"x", "chat", "t", "c", "s", [], "Manual", 1, 5, some "f.txt", none, [],
          none, some 0.4, 7, some 99, "m"⟩]
        [⟨"x", some "chat", "t2", "c2", "s2", ["k"], "Claude", 1, some 123, none,
          none, none, some "semantic", some 0.6⟩,
         ⟨"y", none, "t3", "c3", "s3", [], "Manual", 50, none, none,
          none, none, none, none⟩],
      r2.id = "x" ∧ r2.createdAt = 1 ∧ r2.recallCount = 7 ∧
      r2.lastAccessedAt = some 99 ∧ r2.decayMetadata = "m" ∧
      r2.fileName = some "f.txt" ∧
      r2.updatedAt = 123 := by
  obtain ⟨r2, hmem, h1, h2, h3, h4, h5, h6, h7⟩ :=
    C9_upsert_frame
      [⟨"x", "chat", "t", "c", "s", [], "Manual", 1, 5, some "f.txt", none, [],
        none, some 0.4, 7, some 99, "m"⟩]
      [⟨"x", some "chat", "t2", "c2", "s2", ["k"], "Claude", 1, some 123, none,
        none, none, some "semantic", some 0.6⟩,
       ⟨"y", none, "t3", "c3", "s3", [], "Manual", 50, none, none,
        none, none, none, none⟩]
      ⟨"x", "chat", "t", "c", "s", [], "Manual", 1, 5, some "f.txt", none, [],
        none, some 0.4, 7, some 99, "m"⟩
      (List.mem_singleton_self _)
  exact ⟨r2, hmem, h1, h2, h3, h4, h5, h6, by rw [h7]; rfl⟩

/-- C9 counterexample. The claim says the upsert sets updated_at to now;
the handler instead copies the caller-supplied updatedAt. save_database is
a pure function of the store and the items — it takes no clock — and on
this two-item batch the updated row "x" stores the incoming value 123
(the inserted row "y" stores its createdAt fallback 50), so a call at,
e.g., wall-clock time 999 does not store 999. -/
theorem C9_upsert_cex :
    (saveDatabase
        [⟨"x", "chat", "t", "c", "s", [], "Manual", 1, 5, none, none, [],
          none, none, 7, some 99, "m"⟩]
        [⟨"x", none, "t2", "c2", "s2", [], "Claude", 1, some 123, none,
          none, none, none, none⟩,
         ⟨"y", none, "t3", "c3", "s3", [], "Manual", 50, none, none,
          none, none, none, none⟩]).map (fun r => r.updatedAt) = [123, 50] ∧
    (123 : ℤ) ≠ 999 := by
  constructor
  · rfl
  · decide

/-! ## Decay engine (salienceDecayConfig.js / salienceDecayService.js)

The configuration tables and the pure decay computation. JavaScript floats
are embedded as reals; `Math.pow(0.5, x)` is `(0.5 : ℝ) ^ (x : ℝ)` (rpow)
and `Math.exp` is `Real.exp`. The impure read of
getCurrentEnvironmentalContext inside calculateDecay is made an explicit
argument: the context in force during the computation. -/

structure DecayParams where
  baseHalfLifeHours : ℝ
  minimumSalience : ℝ
  boostMultiplier : ℝ

def episodicParams : DecayParams := ⟨24, 0.1, 1.2⟩

def semanticParams : DecayParams := ⟨168, 0.15, 1.0⟩

def proceduralParams : DecayParams := ⟨720, 0.2, 0.9⟩

def emotionalParams : DecayParams := ⟨48, 0.12, 1.3⟩

def defaultParams : DecayParams := ⟨72, 0.1, 1.0⟩

/-- MEMORY_TYPE_DECAY_RATES lookup of getDecayParamsForType: the source
lowercases `memoryType?.toLowerCase() || 'default'` and falls back to the
default entry for null or unknown names; the model matches the lowercase
names directly, every other value (including none) falling to default. -/
def getDecayParamsForType : Option String → DecayParams
  | some "episodic" => episodicParams
  | some "semantic" => semanticParams
  | some "procedural" => proceduralParams
  | some "emotional" => emotionalParams
  | _ => defaultParams

structure EnvironmentalContext where
  decayRateMultiplier : ℝ
  description : String

def lowActivity : EnvironmentalContext := ⟨1.0, "Normal activity levels"⟩

def highActivity : EnvironmentalContext :=
  ⟨0.7, "High activity/stress periods enhance consolidation"⟩

def restPeriod : EnvironmentalContext := ⟨1.3, "Rest periods allow normal forgetting"⟩

def focusedLearning : EnvironmentalContext :=
  ⟨0.5, "Deep focus/learning mode maximizes retention"⟩

/-- getCurrentEnvironmentalContext as a function of the local wall-clock
hour: focusedLearning 09-17, highActivity 18-22, restPeriod otherwise.
Note it never yields lowActivity; that context exists only as a constant. -/
def getCurrentEnvironmentalContext (hour : ℕ) : EnvironmentalContext :=
  if 9 ≤ hour ∧ hour ≤ 17 then focusedLearning
  else if 18 ≤ hour ∧ hour ≤ 22 then highActivity
  else restPeriod

/-- EBBINGHAUS_PARAMS of salienceDecayConfig.js. -/
def initialDecaySteepness : ℝ := 1.5

def flatteningPointHours : ℝ := 24

def asymptoticRetention : ℝ := 0.15

open scoped Classical in
/-- getLTPResistanceFactor: the first level of salienceDecayResistance
(in insertion order veryLow, low, medium, high, veryHigh) whose
maxSalience the salience does not exceed; the fallback equals the veryHigh
factor. Bands are upper-inclusive: at salience exactly 0.8 the factor is
1.5, not 2.0. -/
noncomputable def getLTPResistanceFactor (salience : ℝ) : ℝ :=
  if salience ≤ 0.2 then 0.5
  else if salience ≤ 0.4 then 0.75
  else if salience ≤ 0.6 then 1
  else if salience ≤ 0.8 then 1.5
  else 2

/-- getRecallBoost: recallCount * 0.02 capped at 0.3. -/
noncomputable def getRecallBoost (recallCount : ℕ) : ℝ :=
  min ((recallCount : ℝ) * 0.02) 0.3

/-- The record calculateDecay returns, its modifiers object flattened. -/
structure DecayResult where
  newSalience : ℝ
  decayAmount : ℝ
  effectiveHalfLife : ℝ
  hoursSinceAccess : ℝ
  ltpFactor : ℝ
  recallBoost : ℝ
  environmentalMultiplier : ℝ
  ebbinghausModifier : ℝ

/-- SalienceDecayService._applyEbbinghausCurve: blend the base half-life
decay with the asymptotic forgetting curve, weighted by exp(-t/24), and
floor the blend at the asymptotic retention 0.15. -/
noncomputable def applyEbbinghausCurve (hoursSinceAccess baseDecayRatio : ℝ) : ℝ :=
  let normalizedTime := hoursSinceAccess / flatteningPointHours
  let forgettingFactor := asymptoticRetention +
    (1 - asymptoticRetention) * Real.exp (-initialDecaySteepness * normalizedTime)
  let ebbinghausWeight := Real.exp (-normalizedTime)
  let blendedDecay := baseDecayRatio * (1 - ebbinghausWeight) +
    forgettingFactor * ebbinghausWeight
  max blendedDecay asymptoticRetention

/-- SalienceDecayService.calculateDecay: effective half-life from the
memory type scaled by LTP resistance, recall boost and the environmental
multiplier; base ratio 0.5^(h/H_eff); Ebbinghaus modifier; the new salience
is the modified salience floored at the type's minimum. There is no
under-15-minutes early return here — that guard lives in processBatch. -/
noncomputable def calculateDecay (currentSalience hoursSinceAccess : ℝ)
    (memoryType : Option String) (recallCount : ℕ) (ctx : EnvironmentalContext) :
    DecayResult :=
  let params := getDecayParamsForType memoryType
  let ltpFactor := getLTPResistanceFactor currentSalience
  let recallBoost := getRecallBoost recallCount
  let effectiveHalfLife :=
    params.baseHalfLifeHours * ltpFactor * (1 + recallBoost) / ctx.decayRateMultiplier
  let decayRatio := (0.5 : ℝ) ^ (hoursSinceAccess / effectiveHalfLife)
  let ebbinghausModifier := applyEbbinghausCurve hoursSinceAccess decayRatio
  let newSalience := max (currentSalience * ebbinghausModifier) params.minimumSalience
  { newSalience := newSalience,
    decayAmount := currentSalience - newSalience,
    effectiveHalfLife := effectiveHalfLife,
    hoursSinceAccess := hoursSinceAccess,
    ltpFactor := ltpFactor,
    recallBoost := recallBoost,
    environmentalMultiplier := ctx.decayRateMultiplier,
    ebbinghausModifier := ebbinghausModifier }

/-! ## Decay scheduler (processBatch's per-item step)

processBatch selects rows with salience > 0.1 whose decay_metadata
lastDecayRun is NULL or older than 900000 ms, computes
h = (now - last_accessed)/3600000, skips rows accessed under 15 minutes
ago, and persists the decay result only when newSalience < salience,
stamping lastDecayRun := now and appending a history entry (last 10 kept).
Each row is handled independently, so the cycle is modelled by its action
on one row. -/

structure DecayHistoryEntry where
  timestamp : ℤ
  previousSalience : ℝ
  newSalience : ℝ
  hoursSinceAccess : ℝ
  ltpFactor : ℝ
  recallBoost : ℝ
  environmentalMultiplier : ℝ
  ebbinghausModifier : ℝ

structure DecayMetadata where
  lastDecayRun : Option ℤ
  decayHistory : List DecayHistoryEntry

/-- The decay-relevant columns of one chats/facts row as processBatch reads
them (last_accessed is COALESCE(last_accessed_at, createdAt)). -/
structure ItemState where
  id : String
  salience : ℝ
  lastAccessed : ℤ
  memoryType : Option String
  recallCount : ℕ
  decayMetadata : DecayMetadata

/-- Hours since last access: (now - last_accessed) / (1000 * 60 * 60). -/
noncomputable def hoursSince (now : ℤ) (item : ItemState) : ℝ :=
  ((now - item.lastAccessed : ℤ) : ℝ) / 3600000

/-- The WHERE clause of processBatch step 2b: salience > 0.1 AND
(lastDecayRun IS NULL OR now - lastDecayRun > 900000). -/
def eligibleForDecay (now : ℤ) (item : ItemState) : Prop :=
  0.1 < item.salience ∧
    (item.decayMetadata.lastDecayRun = none ∨
      ∃ t, item.decayMetadata.lastDecayRun = some t ∧ 900000 < now - t)

open scoped Classical in
/-- The effect of one decay cycle on one row: nothing if the WHERE clause
excludes it; nothing if accessed under 15 minutes ago; otherwise run the
engine and write salience and decay_metadata only when the new salience is
strictly below the stored one. The history keeps slice(-9) of the old
entries plus the new one. -/
noncomputable def cycleStepWith (now : ℤ) (ctx : EnvironmentalContext) (item : ItemState)
    (r : DecayResult) : ItemState :=
  if eligibleForDecay now item then
    if hoursSince now item < 0.25 then item
    else
      if r.newSalience < item.salience then
        { item with
            salience := r.newSalience,
            decayMetadata :=
              { lastDecayRun := some now,
                decayHistory :=
                  (item.decayMetadata.decayHistory.drop
                    (item.decayMetadata.decayHistory.length - 9)) ++
                  [{ timestamp := now, previousSalience := item.salience,
                     newSalience := r.newSalience,
                     hoursSinceAccess := hoursSince now item,
                     ltpFactor := r.ltpFactor, recallBoost := r.recallBoost,
                     environmentalMultiplier := r.environmentalMultiplier,
                     ebbinghausModifier := r.ebbinghausModifier }] } }
      else item
  else item

/-- cycleStepWith applied to the engine's result for this row (the source
binds it as `decayResult` right before the write test). -/
noncomputable def cycleStep (now : ℤ) (ctx : EnvironmentalContext) (item : ItemState) :
    ItemState :=
  cycleStepWith now ctx item
    (calculateDecay item.salience (hoursSince now item) item.memoryType item.recallCount ctx)

/-! ### General decay-engine lemmas -/

theorem getDecayParamsForType_episodic :
    getDecayParamsForType (some "episodic") = episodicParams := rfl

theorem getDecayParamsForType_minSalience_pos (mt : Option String) :
    0 < (getDecayParamsForType mt).minimumSalience := by
  unfold getDecayParamsForType
  split <;>
    norm_num [episodicParams, semanticParams, proceduralParams, emotionalParams, defaultParams]

theorem getDecayParamsForType_base_pos (mt : Option String) :
    0 < (getDecayParamsForType mt).baseHalfLifeHours := by
  unfold getDecayParamsForType
  split <;>
    norm_num [episodicParams, semanticParams, proceduralParams, emotionalParams, defaultParams]

theorem getLTPResistanceFactor_pos (s : ℝ) : 0 < getLTPResistanceFactor s := by
  unfold getLTPResistanceFactor
  split_ifs <;> norm_num

theorem getRecallBoost_nonneg (r : ℕ) : 0 ≤ getRecallBoost r := by
  unfold getRecallBoost
  exact le_min (by positivity) (by norm_num)

theorem effectiveHalfLife_pos (S h : ℝ) (mt : Option String) (rc : ℕ)
    (ctx : EnvironmentalContext) (hm : 0 < ctx.decayRateMultiplier) :
    0 < (calculateDecay S h mt rc ctx).effectiveHalfLife := by
  simp only [calculateDecay]
  have h1 := getDecayParamsForType_base_pos mt
  have h2 := getLTPResistanceFactor_pos S
  have h3 := getRecallBoost_nonneg rc
  positivity

theorem applyEbbinghausCurve_le_one (h b : ℝ) (hh : 0 ≤ h) (hb0 : 0 ≤ b) (hb1 : b ≤ 1) :
    applyEbbinghausCurve h b ≤ 1 := by
  simp only [applyEbbinghausCurve, flatteningPointHours, asymptoticRetention,
    initialDecaySteepness]
  have hw0 : 0 < Real.exp (-(h / 24)) := Real.exp_pos _
  have hw1 : Real.exp (-(h / 24)) ≤ 1 := by
    calc Real.exp (-(h / 24)) ≤ Real.exp 0 := Real.exp_le_exp.mpr (by linarith [hh, div_nonneg hh (by norm_num : (0:ℝ) ≤ 24)])
      _ = 1 := Real.exp_zero
  have hf0 : 0 < Real.exp (-1.5 * (h / 24)) := Real.exp_pos _
  have hf1 : Real.exp (-1.5 * (h / 24)) ≤ 1 := by
    calc Real.exp (-1.5 * (h / 24)) ≤ Real.exp 0 := by
          apply Real.exp_le_exp.mpr
          have : 0 ≤ h / 24 := div_nonneg hh (by norm_num)
          nlinarith
      _ = 1 := Real.exp_zero
  apply max_le _ (by norm_num)
  nlinarith

theorem applyEbbinghausCurve_lt_one (h b : ℝ) (hh : 0 < h) (hb0 : 0 ≤ b) (hb1 : b < 1) :
    applyEbbinghausCurve h b < 1 := by
  simp only [applyEbbinghausCurve, flatteningPointHours, asymptoticRetention,
    initialDecaySteepness]
  have hw0 : 0 < Real.exp (-(h / 24)) := Real.exp_pos _
  have hw1 : Real.exp (-(h / 24)) < 1 := by
    calc Real.exp (-(h / 24)) < Real.exp 0 := by
          apply Real.exp_lt_exp.mpr
          have : 0 < h / 24 := div_pos hh (by norm_num)
          linarith
      _ = 1 := Real.exp_zero
  have hf0 : 0 < Real.exp (-1.5 * (h / 24)) := Real.exp_pos _
  have hf1 : Real.exp (-1.5 * (h / 24)) < 1 := by
    calc Real.exp (-1.5 * (h / 24)) < Real.exp 0 := by
          apply Real.exp_lt_exp.mpr
          have : 0 < h / 24 := div_pos hh (by norm_num)
          nlinarith
      _ = 1 := Real.exp_zero
  apply max_lt _ (by norm_num)
  nlinarith

theorem newSalience_ge_floor (S h : ℝ) (mt : Option String) (rc : ℕ)
    (ctx : EnvironmentalContext) :
    (getDecayParamsForType mt).minimumSalience ≤ (calculateDecay S h mt rc ctx).newSalience := by
  simp only [calculateDecay]
  exact le_max_right _ _

/-- The engine strictly shrinks a salience that is positive and above the
type's floor, for positive inactivity and a positive environment
multiplier. -/
theorem newSalience_lt (S h : ℝ) (mt : Option String) (rc : ℕ) (ctx : EnvironmentalContext)
    (hS : 0 < S) (hflr : (getDecayParamsForType mt).minimumSalience < S)
    (hh : 0 < h) (hm : 0 < ctx.decayRateMultiplier) :
    (calculateDecay S h mt rc ctx).newSalience < S := by
  have hHeff := effectiveHalfLife_pos S h mt rc ctx hm
  simp only [calculateDecay] at hHeff ⊢
  set Heff := (getDecayParamsForType mt).baseHalfLifeHours * getLTPResistanceFactor S *
    (1 + getRecallBoost rc) / ctx.decayRateMultiplier with hHeffdef
  have hb0 : (0:ℝ) < (0.5 : ℝ) ^ (h / Heff) := Real.rpow_pos_of_pos (by norm_num) _
  have hb1 : (0.5 : ℝ) ^ (h / Heff) < 1 :=
    Real.rpow_lt_one (by norm_num) (by norm_num) (div_pos hh hHeff)
  have hmod : applyEbbinghausCurve h ((0.5 : ℝ) ^ (h / Heff)) < 1 :=
    applyEbbinghausCurve_lt_one h _ hh hb0.le hb1
  apply max_lt _ hflr
  exact mul_lt_of_lt_one_right hS hmod

/-- Below the floor the engine returns exactly the floor (the clamp). -/
theorem newSalience_eq_floor (S h : ℝ) (mt : Option String) (rc : ℕ)
    (ctx : EnvironmentalContext) (hS0 : 0 ≤ S)
    (hflr : S < (getDecayParamsForType mt).minimumSalience)
    (hh : 0 ≤ h) (hm : 0 < ctx.decayRateMultiplier) :
    (calculateDecay S h mt rc ctx).newSalience = (getDecayParamsForType mt).minimumSalience := by
  have hHeff := effectiveHalfLife_pos S h mt rc ctx hm
  simp only [calculateDecay] at hHeff ⊢
  set Heff := (getDecayParamsForType mt).baseHalfLifeHours * getLTPResistanceFactor S *
    (1 + getRecallBoost rc) / ctx.decayRateMultiplier with hHeffdef
  have hb0 : (0:ℝ) < (0.5 : ℝ) ^ (h / Heff) := Real.rpow_pos_of_pos (by norm_num) _
  have hb1 : (0.5 : ℝ) ^ (h / Heff) ≤ 1 :=
    Real.rpow_le_one (by norm_num) (by norm_num) (div_nonneg hh hHeff.le)
  have hmod : applyEbbinghausCurve h ((0.5 : ℝ) ^ (h / Heff)) ≤ 1 :=
    applyEbbinghausCurve_le_one h _ hh hb0.le hb1
  apply max_eq_right
  calc S * applyEbbinghausCurve h ((0.5 : ℝ) ^ (h / Heff)) ≤ S :=
        mul_le_of_le_one_right hS0 hmod
    _ ≤ (getDecayParamsForType mt).minimumSalience := hflr.le

/-! ### Scheduler-step lemmas -/

theorem cycleStep_salience_le (now : ℤ) (ctx : EnvironmentalContext) (item : ItemState) :
    (cycleStep now ctx item).salience ≤ item.salience := by
  simp only [cycleStep, cycleStepWith]
  split_ifs with h1 h2 h3
  · exact le_refl _
  · exact le_of_lt h3
  · exact le_refl _
  · exact le_refl _

theorem cycleStep_skip_of_recent (now : ℤ) (ctx : EnvironmentalContext) (item : ItemState)
    (hh : hoursSince now item < 0.25) : cycleStep now ctx item = item := by
  simp only [cycleStep, cycleStepWith]
  split_ifs with h1 <;> rfl

theorem cycleStep_guard (now t : ℤ) (ctx : EnvironmentalContext) (item : ItemState)
    (hrun : item.decayMetadata.lastDecayRun = some t) (hwithin : now - t ≤ 900000) :
    cycleStep now ctx item = item := by
  have hnel : ¬ eligibleForDecay now item := by
    rintro ⟨-, hnone | ⟨t2, ht2, hgt⟩⟩
    · rw [hrun] at hnone
      exact Option.noConfusion hnone
    · rw [hrun] at ht2
      injection ht2 with h
      subst h
      omega
  simp only [cycleStep, cycleStepWith]
  rw [if_neg hnel]

theorem cycleStep_write_salience (now : ℤ) (ctx : EnvironmentalContext) (item : ItemState)
    (helig : eligibleForDecay now item) (hh : ¬ hoursSince now item < 0.25)
    (hlt : (calculateDecay item.salience (hoursSince now item) item.memoryType
      item.recallCount ctx).newSalience < item.salience) :
    (cycleStep now ctx item).salience
      = (calculateDecay item.salience (hoursSince now item) item.memoryType
          item.recallCount ctx).newSalience := by
  simp only [cycleStep, cycleStepWith]
  rw [if_pos helig, if_neg hh, if_pos hlt]

theorem cycleStep_no_write (now : ℤ) (ctx : EnvironmentalContext) (item : ItemState)
    (hge : ¬ (calculateDecay item.salience (hoursSince now item) item.memoryType
      item.recallCount ctx).newSalience < item.salience) :
    cycleStep now ctx item = item := by
  simp only [cycleStep, cycleStepWith]
  split_ifs with h1 h2 <;> rfl

/-! ### Claims C2, C5, C6, C10 -/

/-- C2. Stored salience never increases across decay cycles: for any item
row and any sequence of cycles (each with its time and environmental
context) with no rehearsal in between, the final stored salience is at most
the initial one — processBatch persists a result only when
newSalience < salience, so every step is non-increasing. -/
theorem C2_monotone_decay (item : ItemState) (cycles : List (ℤ × EnvironmentalContext)) :
    (cycles.foldl (fun it tc => cycleStep tc.1 tc.2 it) item).salience ≤ item.salience := by
  induction cycles generalizing item with
  | nil => exact le_refl _
  | cons tc rest ih =>
    calc (List.foldl (fun it tc => cycleStep tc.1 tc.2 it) (cycleStep tc.1 tc.2 item) rest).salience
        ≤ (cycleStep tc.1 tc.2 item).salience := ih _
      _ ≤ item.salience := cycleStep_salience_le tc.1 tc.2 item

/-- C5 (amended). The WHERE-clause guard makes the second cycle idempotent
only for rows the first cycle actually wrote: a row whose
decay_metadata.lastDecayRun was stamped at most interval_ms (900000 ms) ago
is excluded by the guard and left completely unchanged. (A row the first
cycle skipped — e.g. accessed under 15 minutes before it — carries no
fresh lastDecayRun and may decay on the second cycle; see the
counterexample.) -/
theorem C5_idempotence_guard (now t : ℤ) (ctx : EnvironmentalContext) (item : ItemState)
    (hrun : item.decayMetadata.lastDecayRun = some t) (hwithin : now - t ≤ 900000) :
    cycleStep now ctx item = item :=
  cycleStep_guard now t ctx item hrun hwithin

/-- C5 witness: a row stamped at 1000000 ms is untouched by a cycle at
1500000 ms (500000 ms later, within the 900000 ms interval). -/
theorem C5_idempotence_guard_witness :
    cycleStep 1500000 restPeriod
        ⟨"a", 0.8, 0, some "episodic", 0, ⟨some 1000000, []⟩⟩
      = ⟨"a", 0.8, 0, some "episodic", 0, ⟨some 1000000, []⟩⟩ :=
  C5_idempotence_guard 1500000 1000000 restPeriod
    ⟨"a", 0.8, 0, some "episodic", 0, ⟨some 1000000, []⟩⟩ rfl (by decide)

/-- C5 counterexample. A database state on which a second run_cycle within
interval_ms of the first, with no access in between, changes an item: the
item was last accessed at time 0, the first cycle at 600000 ms (10 min)
skips it (h < 0.25) and stamps nothing, and the second cycle at 1440000 ms
— 840000 ms ≤ interval_ms after the first — finds h = 0.4 and decays it. -/
theorem C5_idempotence_cex :
    cycleStep 600000 restPeriod (⟨"a", 0.8, 0, some "episodic", 0, ⟨none, []⟩⟩ : ItemState)
      = (⟨"a", 0.8, 0, some "episodic", 0, ⟨none, []⟩⟩ : ItemState) ∧
    (cycleStep 1440000 restPeriod
        (cycleStep 600000 restPeriod
          (⟨"a", 0.8, 0, some "episodic", 0, ⟨none, []⟩⟩ : ItemState))).salience
      < (⟨"a", 0.8, 0, some "episodic", 0, ⟨none, []⟩⟩ : ItemState).salience := by
  have hskip : cycleStep 600000 restPeriod
      (⟨"a", 0.8, 0, some "episodic", 0, ⟨none, []⟩⟩ : ItemState)
      = (⟨"a", 0.8, 0, some "episodic", 0, ⟨none, []⟩⟩ : ItemState) := by
    apply cycleStep_skip_of_recent
    norm_num [hoursSince]
  have hhours : hoursSince 1440000 (⟨"a", 0.8, 0, some "episodic", 0, ⟨none, []⟩⟩ : ItemState)
      = 0.4 := by
    norm_num [hoursSince]
  have hlt : (calculateDecay 0.8
      (hoursSince 1440000 (⟨"a", 0.8, 0, some "episodic", 0, ⟨none, []⟩⟩ : ItemState))
      (some "episodic") 0 restPeriod).newSalience < 0.8 := by
    rw [hhours]
    apply newSalience_lt
    · norm_num
    · rw [getDecayParamsForType_episodic]
      norm_num [episodicParams]
    · norm_num
    · norm_num [restPeriod]
  refine ⟨hskip, ?_⟩
  rw [hskip]
  rw [cycleStep_write_salience 1440000 restPeriod _ ⟨by norm_num, Or.inl rfl⟩
    (by rw [hhours]; norm_num) hlt]
  exact hlt

/-- C6 (amended). The under-15-minutes guard lives in the scheduler, not
the engine: processBatch skips an item whose hours-since-access is below
0.25, leaving its salience and metadata unchanged; calculateDecay itself
applies no such early return (see the counterexample). -/
theorem C6_skip_recent (now : ℤ) (ctx : EnvironmentalContext) (item : ItemState)
    (hh : hoursSince now item < 0.25) : cycleStep now ctx item = item :=
  cycleStep_skip_of_recent now ctx item hh

/-- C6 witness: an item accessed 10 minutes before the cycle is unchanged
by it. -/
theorem C6_skip_recent_witness :
    cycleStep 600000 focusedLearning
        (⟨"b", 0.9, 0, some "semantic", 3, ⟨none, []⟩⟩ : ItemState)
      = (⟨"b", 0.9, 0, some "semantic", 3, ⟨none, []⟩⟩ : ItemState) :=
  C6_skip_recent 600000 focusedLearning
    (⟨"b", 0.9, 0, some "semantic", 3, ⟨none, []⟩⟩ : ItemState)
    (by norm_num [hoursSince])

/-- C6 counterexample. The decay engine does not always return S unchanged
below 15 minutes: at salience 0.8, episodic, recall 0, h = 0.1 hours
(6 minutes) calculateDecay returns a strictly smaller salience. -/
theorem C6_skip_recent_cex :
    (calculateDecay 0.8 0.1 (some "episodic") 0 restPeriod).newSalience ≠ 0.8 := by
  apply ne_of_lt
  apply newSalience_lt
  · norm_num
  · rw [getDecayParamsForType_episodic]
    norm_num [episodicParams]
  · norm_num
  · norm_num [restPeriod]

/-- C10. The engine alone is not monotone: when the stored salience is
non-negative but strictly below the memory type's floor (and the row was
not accessed in the future, h ≥ 0, with a positive context multiplier),
calculateDecay returns newSalience equal to the floor — strictly above the
input, with negative decayAmount — and the scheduler never persists this
increase: its write condition newSalience < salience fails, so the step
leaves the row unchanged. -/
theorem C10_floor_not_persisted (now : ℤ) (ctx : EnvironmentalContext) (item : ItemState)
    (hS0 : 0 ≤ item.salience)
    (hflr : item.salience < (getDecayParamsForType item.memoryType).minimumSalience)
    (hh : 0 ≤ hoursSince now item) (hm : 0 < ctx.decayRateMultiplier) :
    (calculateDecay item.salience (hoursSince now item) item.memoryType
        item.recallCount ctx).newSalience
      = (getDecayParamsForType item.memoryType).minimumSalience ∧
    item.salience < (calculateDecay item.salience (hoursSince now item) item.memoryType
        item.recallCount ctx).newSalience ∧
    (calculateDecay item.salience (hoursSince now item) item.memoryType
        item.recallCount ctx).decayAmount < 0 ∧
    cycleStep now ctx item = item := by
  have heq := newSalience_eq_floor item.salience (hoursSince now item) item.memoryType
    item.recallCount ctx hS0 hflr hh hm
  have hgt : item.salience < (calculateDecay item.salience (hoursSince now item)
      item.memoryType item.recallCount ctx).newSalience := by
    rw [heq]; exact hflr
  refine ⟨heq, hgt, ?_, ?_⟩
  · have : (calculateDecay item.salience (hoursSince now item) item.memoryType
        item.recallCount ctx).decayAmount = item.salience - (calculateDecay item.salience
        (hoursSince now item) item.memoryType item.recallCount ctx).newSalience := by
      simp only [calculateDecay]
    rw [this]
    linarith
  · exact cycleStep_no_write now ctx item (not_lt.mpr hgt.le)

/-- C10 witness: salience 0.05, episodic (floor 0.1), 48 hours inactive,
rest-period context. -/
theorem C10_floor_witness :
    (calculateDecay
        (⟨"w", 0.05, 0, some "episodic", 0, ⟨none, []⟩⟩ : ItemState).salience
        (hoursSince 172800000 (⟨"w", 0.05, 0, some "episodic", 0, ⟨none, []⟩⟩ : ItemState))
        (some "episodic") 0 restPeriod).newSalience
      = (getDecayParamsForType (some "episodic")).minimumSalience ∧
    (⟨"w", 0.05, 0, some "episodic", 0, ⟨none, []⟩⟩ : ItemState).salience
      < (calculateDecay 0.05
          (hoursSince 172800000 (⟨"w", 0.05, 0, some "episodic", 0, ⟨none, []⟩⟩ : ItemState))
          (some "episodic") 0 restPeriod).newSalience ∧
    (calculateDecay 0.05
        (hoursSince 172800000 (⟨"w", 0.05, 0, some "episodic", 0, ⟨none, []⟩⟩ : ItemState))
        (some "episodic") 0 restPeriod).decayAmount < 0 ∧
    cycleStep 172800000 restPeriod (⟨"w", 0.05, 0, some "episodic", 0, ⟨none, []⟩⟩ : ItemState)
      = (⟨"w", 0.05, 0, some "episodic", 0, ⟨none, []⟩⟩ : ItemState) :=
  C10_floor_not_persisted 172800000 restPeriod
    (⟨"w", 0.05, 0, some "episodic", 0, ⟨none, []⟩⟩ : ItemState)
    (by norm_num)
    (by rw [getDecayParamsForType_episodic]; norm_num [episodicParams])
    (by norm_num [hoursSince])
    (by norm_num [restPeriod])

/-! ### Claim C1: scenario SC1 (episodic, salience 0.8, 48 h, low_activity)

The LTP band selector is upper-inclusive, so at salience exactly 0.8 the
factor is 1.5 (not 2.0 as SC1 computes): the effective half-life is
24 * 1.5 * 1 / 1 = 36 h, the base ratio 0.5^(48/36) = 0.5^(4/3) ≈ 0.3969,
and the new salience ≈ 0.2953, outside SC1's acceptance band
[0.35, 0.40]. -/

theorem sc1_halfLife :
    (calculateDecay 0.8 48 (some "episodic") 0 lowActivity).effectiveHalfLife = 36 := by
  have hltp : getLTPResistanceFactor 0.8 = 1.5 := by
    unfold getLTPResistanceFactor
    norm_num
  simp only [calculateDecay, getDecayParamsForType_episodic, hltp]
  norm_num [episodicParams, lowActivity, getRecallBoost]

theorem sc1_newSalience :
    (calculateDecay 0.8 48 (some "episodic") 0 lowActivity).newSalience
      = max (0.8 * max ((0.5 : ℝ) ^ ((4 : ℝ)/3) * (1 - Real.exp (-2)) +
          (0.15 + 0.85 * Real.exp (-3)) * Real.exp (-2)) 0.15) 0.1 := by
  have hltp : getLTPResistanceFactor 0.8 = 1.5 := by
    unfold getLTPResistanceFactor
    norm_num
  simp only [calculateDecay, applyEbbinghausCurve, getDecayParamsForType_episodic, hltp]
  norm_num [episodicParams, lowActivity, getRecallBoost, flatteningPointHours,
    asymptoticRetention, initialDecaySteepness]

set_option maxHeartbeats 1000000 in
theorem sc1_value_bounds :
    0.294 < (calculateDecay 0.8 48 (some "episodic") 0 lowActivity).newSalience ∧
    (calculateDecay 0.8 48 (some "episodic") 0 lowActivity).newSalience < 0.297 := by
  rw [sc1_newSalience]
  have he1lo := Real.exp_one_gt_d9
  have he1hi := Real.exp_one_lt_d9
  have he2 : Real.exp 2 = Real.exp 1 * Real.exp 1 := by
    rw [← Real.exp_add]; norm_num
  have he2lo : (7.389 : ℝ) < Real.exp 2 := by nlinarith
  have he2hi : Real.exp 2 < 7.39 := by nlinarith
  have he3 : Real.exp 3 = Real.exp 2 * Real.exp 1 := by
    rw [← Real.exp_add]; norm_num
  have he3lo : (20.08 : ℝ) < Real.exp 3 := by nlinarith [Real.exp_pos 2]
  have he3hi : Real.exp 3 < 20.09 := by nlinarith [Real.exp_pos 2]
  have hw2 : Real.exp (-2 : ℝ) * Real.exp 2 = 1 := by
    rw [← Real.exp_add]; norm_num
  have hwpos : (0 : ℝ) < Real.exp (-2 : ℝ) := Real.exp_pos _
  have hwlo : (0.1353 : ℝ) < Real.exp (-2 : ℝ) := by nlinarith
  have hwhi : Real.exp (-2 : ℝ) < 0.1354 := by nlinarith
  have hv3 : Real.exp (-3 : ℝ) * Real.exp 3 = 1 := by
    rw [← Real.exp_add]; norm_num
  have hvpos : (0 : ℝ) < Real.exp (-3 : ℝ) := Real.exp_pos _
  have hvlo : (0.0494 : ℝ) < Real.exp (-3 : ℝ) := by nlinarith
  have hvhi : Real.exp (-3 : ℝ) < 0.0499 := by nlinarith
  have hbpos : (0 : ℝ) < (0.5 : ℝ) ^ ((4 : ℝ)/3) := Real.rpow_pos_of_pos (by norm_num) _
  have hexp4 : ((4 : ℝ)/3) * ((3 : ℕ) : ℝ) = ((4 : ℕ) : ℝ) := by norm_num
  have hb3 : ((0.5 : ℝ) ^ ((4 : ℝ)/3)) ^ (3 : ℕ) = 1/16 := by
    rw [← Real.rpow_natCast ((0.5 : ℝ) ^ ((4 : ℝ)/3)) 3,
      ← Real.rpow_mul (by norm_num : (0 : ℝ) ≤ 0.5), hexp4, Real.rpow_natCast]
    norm_num
  have hblo : (0.396 : ℝ) < (0.5 : ℝ) ^ ((4 : ℝ)/3) := by
    by_contra hcon
    push_neg at hcon
    have h3 := pow_le_pow_left₀ hbpos.le hcon 3
    rw [hb3] at h3
    norm_num at h3
  have hbhi : (0.5 : ℝ) ^ ((4 : ℝ)/3) < 0.398 := by
    by_contra hcon
    push_neg at hcon
    have h3 := pow_le_pow_left₀ (by norm_num : (0 : ℝ) ≤ 0.398) hcon 3
    rw [hb3] at h3
    norm_num at h3
  have h1w_lo : (0.8646 : ℝ) < 1 - Real.exp (-2 : ℝ) := by linarith
  have h1w_hi : 1 - Real.exp (-2 : ℝ) < 0.8647 := by linarith
  have hBw_lo : (0.396 : ℝ) * 0.8646 < (0.5 : ℝ) ^ ((4 : ℝ)/3) * (1 - Real.exp (-2 : ℝ)) :=
    mul_lt_mul'' hblo h1w_lo (by norm_num) (by norm_num)
  have hBw_hi : (0.5 : ℝ) ^ ((4 : ℝ)/3) * (1 - Real.exp (-2 : ℝ)) < 0.398 * 0.8647 :=
    mul_lt_mul'' hbhi h1w_hi hbpos.le (by linarith)
  have hf_lo : (0.19199 : ℝ) < 0.15 + 0.85 * Real.exp (-3 : ℝ) := by nlinarith
  have hf_hi : 0.15 + 0.85 * Real.exp (-3 : ℝ) < 0.192415 := by nlinarith
  have hfw_lo : (0.19199 : ℝ) * 0.1353
      < (0.15 + 0.85 * Real.exp (-3 : ℝ)) * Real.exp (-2 : ℝ) :=
    mul_lt_mul'' hf_lo hwlo (by norm_num) (by norm_num)
  have hfw_hi : (0.15 + 0.85 * Real.exp (-3 : ℝ)) * Real.exp (-2 : ℝ)
      < 0.192415 * 0.1354 :=
    mul_lt_mul'' hf_hi hwhi (by nlinarith) hwpos.le
  have hmaxin : max ((0.5 : ℝ) ^ ((4 : ℝ)/3) * (1 - Real.exp (-2)) +
      (0.15 + 0.85 * Real.exp (-3)) * Real.exp (-2)) 0.15
      = (0.5 : ℝ) ^ ((4 : ℝ)/3) * (1 - Real.exp (-2)) +
        (0.15 + 0.85 * Real.exp (-3)) * Real.exp (-2) :=
    max_eq_left (by nlinarith)
  rw [hmaxin]
  have houter : max (0.8 * ((0.5 : ℝ) ^ ((4 : ℝ)/3) * (1 - Real.exp (-2)) +
      (0.15 + 0.85 * Real.exp (-3)) * Real.exp (-2))) 0.1
      = 0.8 * ((0.5 : ℝ) ^ ((4 : ℝ)/3) * (1 - Real.exp (-2)) +
        (0.15 + 0.85 * Real.exp (-3)) * Real.exp (-2)) :=
    max_eq_left (by nlinarith)
  rw [houter]
  constructor <;> nlinarith

/-- C1 (amended). In scenario SC1 — salience 0.8, episodic, recall_count 0,
48 hours since access, low_activity (multiplier 1) — the decay engine's
effective half-life is 36 hours (the upper-inclusive band gives LTP factor
1.5 at salience exactly 0.8), and the returned new salience, approximately
0.2953, lies in [0.29, 0.30]. -/
theorem C1_sc1_episodic_decay :
    (calculateDecay 0.8 48 (some "episodic") 0 lowActivity).effectiveHalfLife = 36 ∧
    0.29 ≤ (calculateDecay 0.8 48 (some "episodic") 0 lowActivity).newSalience ∧
    (calculateDecay 0.8 48 (some "episodic") 0 lowActivity).newSalience ≤ 0.30 := by
  have hb := sc1_value_bounds
  exact ⟨sc1_halfLife, by linarith [hb.1], by linarith [hb.2]⟩

/-- C1 counterexample. On SC1's input the engine does not compute a 48 h
effective half-life (it computes 36 h), and the returned new salience is
below 0.35, outside the claimed acceptance band [0.35, 0.40]. -/
theorem C1_sc1_cex :
    ¬((0.35 : ℝ) ≤ (calculateDecay 0.8 48 (some "episodic") 0 lowActivity).newSalience ∧
      (calculateDecay 0.8 48 (some "episodic") 0 lowActivity).newSalience ≤ 0.40) ∧
    (calculateDecay 0.8 48 (some "episodic") 0 lowActivity).effectiveHalfLife ≠ 48 := by
  have hb := sc1_value_bounds
  constructor
  · rintro ⟨h1, -⟩
    linarith [hb.2]
  · rw [sc1_halfLife]
    norm_num

end Chronicle
